import Mathlib

/-!
Shallow embedding of the Servo devtools server (`components/devtools`):
`actor.rs` (the actor registry: `register`, typed `find`/`find_mut`,
`handle_message` dispatch) and `lib.rs` (the per-connection packet decoding
loop in `handle_client`, `handle_new_global`, and the accept/control loop of
`run_server`).  Byte streams are `List Nat` (byte values), JSON values are an
inductive mirroring `serialize::json::Json`, and every `.unwrap()` on a
fallible value is modelled as an `Except`/`Option` failure recording the
panic site.
-/

namespace Devtools

/-- Model of `serialize::json::Json` at the library boundary.  A JSON number is
kept as its source lexeme (the library stores an `f64`; no claim inspects a
numeric value, only the shape of a value).  An object is an association list of
fields with overwrite-on-insert, modelling `json::Object` (a `TreeMap`). -/
inductive Json where
  | null
  | jbool (b : Bool)
  | num (lexeme : String)
  | str (s : String)
  | arr (elems : List Json)
  | obj (fields : List (String × Json))

/-- Model of `Json::as_string`: a string value yields its contents, anything
else yields `None`. -/
def Json.as_string : Json → Option String
  | .str s => some s
  | _ => none

/-- Model of `Json::as_object`: an object value yields its fields, anything
else yields `None`. -/
def Json.as_object : Json → Option (List (String × Json))
  | .obj fields => some fields
  | _ => none

/-- Key lookup in an association list (first match); models map `find`. -/
def lookupAssoc {α : Type} : List (String × α) → String → Option α
  | [], _ => none
  | (k, v) :: rest, key => if k = key then some v else lookupAssoc rest key

/-- Key insert in an association list, overwriting an existing binding for the
same key; models map `insert` (`HashMap`/`TreeMap`). -/
def insertAssoc {α : Type} : List (String × α) → String → α → List (String × α)
  | [], key, v => [(key, v)]
  | (k, w) :: rest, key, v =>
    if k = key then (key, v) :: rest else (k, w) :: insertAssoc rest key v

/-- Model of `json::Object::find` on the field list of an object. -/
def objFind (fields : List (String × Json)) (key : String) : Option Json :=
  lookupAssoc fields key

/-- Decimal digit accumulation mirroring core `Nat.toDigitsCore` (radix 10):
the first argument is fuel, always called with fuel `> n` so it never runs
out. -/
def natDigitsCore : Nat → Nat → List Char → List Char
  | 0, _, acc => acc
  | f + 1, n, acc =>
    if n < 10 then Nat.digitChar (n % 10) :: acc
    else natDigitsCore f (n / 10) (Nat.digitChar (n % 10) :: acc)

/-- Decimal rendering of a natural number, the model of `format!` with a `{}`
placeholder applied to a counter (mirrors core `Nat.repr`). -/
def natRepr (n : Nat) : String := ⟨natDigitsCore (n + 1) n []⟩

/-- The `RootActor` fields used by `lib.rs` (`actors/root.rs` itself is not
among the sources): a monotonically increasing counter `next` and the ordered
list of known target names `tabs`. -/
structure RootActor where
  next : Nat
  tabs : List String
deriving DecidableEq

/-- The `TabActor` fields as constructed in `handle_new_global`. -/
structure TabActor where
  name : String
  title : String
  url : String
deriving DecidableEq

/-- The `ConsoleActor` fields as constructed in `handle_new_global`; the
script channel and the pipeline id are opaque tokens, modelled as `Nat`. -/
structure ConsoleActor where
  name : String
  script_chan : Nat
  pipeline : Nat
deriving DecidableEq

/-- The closed set of concrete actor types appearing in the sources. -/
inductive ActorData where
  | root (r : RootActor)
  | tab (t : TabActor)
  | console (c : ConsoleActor)
deriving DecidableEq

/-- A concrete actor type requested at a `find::<T>` / `find_mut::<T>` call
site. -/
inductive ActorTy where
  | root
  | tab
  | console
deriving DecidableEq

/-- Modelled from the spec: the `Actor::name` implementations live in
`actors/root.rs`, `actors/tab.rs` and `actors/console.rs`, which are not among
the sources.  Per the spec an actor's identity is its (immutable) name; the
Root actor answers as `"root"` (`lib.rs` looks it up under that name right
after registering it), and Tab/Console answer with their `name` field (the
names `tab{c}` / `console{c}` synthesized at construction). -/
def ActorData.name : ActorData → String
  | .root _ => "root"
  | .tab t => t.name
  | .console c => c.name

/-- Model of `AnyRefExt::is for &Actor` (actor.rs lines 43-52): the source
implementation ignores both the actor and the requested type and returns
`true` unconditionally (the type-id comparison is commented out with a FIXME
calling the implementation bogus). -/
def ActorData.isTy (_ : ActorData) (_ : ActorTy) : Bool := true

/-- Model of `ActorRegistry` (actor.rs): a map from actor name to owned actor,
embedded as an association list with overwrite-on-insert. -/
structure ActorRegistry where
  actors : List (String × ActorData)
deriving DecidableEq

/-- Model of `ActorRegistry::new`. -/
def ActorRegistry.new : ActorRegistry := ⟨[]⟩

/-- Model of `ActorRegistry::register`: insert the actor keyed by its name,
overwriting any existing binding (`HashMap::insert`); it has no failure
case. -/
def ActorRegistry.register (reg : ActorRegistry) (actor : ActorData) : ActorRegistry :=
  ⟨insertAssoc reg.actors actor.name actor⟩

/-- Model of `ActorRegistry::find` / `find_mut` at requested type `t`: unwrap
the map lookup (`none` models the panic when the name is absent), then
downcast.  Because `is` is constantly `true`, the downcast branch always
succeeds and hands back the stored actor "reinterpreted" as `t` — the
mismatch branch of the source (which would return `None` and make the
`.unwrap()` panic) is unreachable; the reinterpretation itself is a raw
`transmute` in the source. -/
def ActorRegistry.findTyped (reg : ActorRegistry) (name : String) (t : ActorTy) :
    Option ActorData :=
  match lookupAssoc reg.actors name with
  | none => none
  | some a => if a.isTy t then some a else none

/-- Panic sites of the session worker and the dispatcher: each constructor
names one `.unwrap()` in `handle_client` (lib.rs) or `handle_message`
(actor.rs) whose failure fails the session task. -/
inductive PanicSite where
  | lenFromUtf8
  | lenFromStrRadix
  | readExact
  | payloadFromUtf8
  | payloadFromStr
  | payloadAsObject
  | msgFindTo
  | toAsString
  | msgFindType
  | typeAsString
deriving DecidableEq

/-- Outcome of one dispatch, as observable through the log. -/
inductive DispatchLog where
  | unknownActor (toName : String)
  | unexpectedType (msgType : String) (toName : String)
  | handled
deriving DecidableEq

/-- Behavior of the concrete actors' `handle_message` implementations
(`actors/*.rs`, not among the sources): given the receiving actor, the
registry, the `type` field and the full message, report whether the message
type was recognized.  The registry code is generic over this behavior, so the
dispatch theorems quantify over it. -/
def Handler : Type :=
  ActorData → ActorRegistry → String → List (String × Json) → Bool

/-- Model of `ActorRegistry::handle_message` (actor.rs lines 107-119): read
`to` (two `.unwrap()`s: field present, then `as_string`), look the actor up —
absent is logged and ignored — then read `type` (two more `.unwrap()`s) and
invoke the actor's handler; an unrecognized type is logged and ignored.  The
method takes `&self`, so the registry is returned unchanged on every
non-panicking path. -/
def ActorRegistry.handle_message (h : Handler) (reg : ActorRegistry)
    (msg : List (String × Json)) : Except PanicSite (ActorRegistry × DispatchLog) :=
  match objFind msg "to" with
  | none => .error .msgFindTo
  | some toVal =>
    match toVal.as_string with
    | none => .error .toAsString
    | some toName =>
      match lookupAssoc reg.actors toName with
      | none => .ok (reg, .unknownActor toName)
      | some actor =>
        match objFind msg "type" with
        | none => .error .msgFindType
        | some tyVal =>
          match tyVal.as_string with
          | none => .error .typeAsString
          | some msgType =>
            if h actor reg msgType msg then .ok (reg, .handled)
            else .ok (reg, .unexpectedType msgType toName)

/-- The name `tab{c}` synthesized by `handle_new_global`. -/
def tabName (c : Nat) : String := "tab" ++ natRepr c

/-- The name `console{c}` synthesized by `handle_new_global`. -/
def consoleName (c : Nat) : String := "console" ++ natRepr c

/-- Model of `handle_new_global` (lib.rs lines 134-160): look up the Root
actor mutably under `"root"` (the `none` branches model the `.unwrap()` panic
when the name is unbound and the — unreachable in any state the server
constructs — memory reinterpretation when the binding is not the Root actor),
synthesize `tab{c}` and `console{c}` from its counter, update the Root in
place (counter incremented, tab name appended), then register the Tab and the
Console actor, in that order. -/
def handle_new_global (reg : ActorRegistry) (pipeline : Nat) (sender : Nat) :
    Option ActorRegistry :=
  match lookupAssoc reg.actors "root" with
  | some (.root root) =>
    let tab : TabActor := ⟨tabName root.next, "", "about:blank"⟩
    let console : ConsoleActor := ⟨consoleName root.next, sender, pipeline⟩
    let root2 : RootActor := ⟨root.next + 1, root.tabs ++ [tab.name]⟩
    let reg2 : ActorRegistry := ⟨insertAssoc reg.actors "root" (.root root2)⟩
    some ((reg2.register (.tab tab)).register (.console console))
  | _ => none

/-- The registry as set up by `run_server` (lib.rs lines 76-84) before any
event is processed: a fresh registry holding the Root actor with counter `0`
and an empty target list. -/
def initialRegistry : ActorRegistry :=
  ActorRegistry.new.register (.root ⟨0, []⟩)

/-- Whether a byte is a UTF-8 continuation byte (`0x80..0xBF`). -/
def isContByte (b : Nat) : Bool := 128 ≤ b && b ≤ 191

/-- Model of `String::from_utf8` validity checking at the library boundary:
standard UTF-8 decoding of a byte list, rejecting truncated sequences,
stray continuation bytes, overlong encodings, surrogates and code points
above `0x10FFFF`, exactly as Rust's UTF-8 validation does. -/
def utf8Decode : List Nat → Option (List Char)
  | [] => some []
  | b :: bs =>
    if b < 128 then
      (utf8Decode bs).map (fun cs => Char.ofNat b :: cs)
    else if 194 ≤ b && b ≤ 223 then
      match bs with
      | b1 :: rest =>
        if isContByte b1 then
          (utf8Decode rest).map (fun cs =>
            Char.ofNat ((b - 192) * 64 + (b1 - 128)) :: cs)
        else none
      | [] => none
    else if 224 ≤ b && b ≤ 239 then
      match bs with
      | b1 :: b2 :: rest =>
        let lo1 := if b = 224 then 160 else 128
        let hi1 := if b = 237 then 159 else 191
        if (lo1 ≤ b1 && b1 ≤ hi1) && isContByte b2 then
          (utf8Decode rest).map (fun cs =>
            Char.ofNat ((b - 224) * 4096 + (b1 - 128) * 64 + (b2 - 128)) :: cs)
        else none
      | _ => none
    else if 240 ≤ b && b ≤ 244 then
      match bs with
      | b1 :: b2 :: b3 :: rest =>
        let lo1 := if b = 240 then 144 else 128
        let hi1 := if b = 244 then 143 else 191
        if (lo1 ≤ b1 && b1 ≤ hi1) && (isContByte b2 && isContByte b3) then
          (utf8Decode rest).map (fun cs =>
            Char.ofNat ((b - 240) * 262144 + (b1 - 128) * 4096 +
              (b2 - 128) * 64 + (b3 - 128)) :: cs)
        else none
      | _ => none
    else none

/-- Value of an ASCII decimal digit character, `none` for anything else. -/
def charDigit10 (c : Char) : Option Nat :=
  if '0' ≤ c && c ≤ '9' then some (c.toNat - 48) else none

/-- Accumulating loop of the base-10 string-to-integer conversion. -/
def fromStrRadix10Core : List Char → Nat → Option Nat
  | [], acc => some acc
  | c :: cs, acc =>
    match charDigit10 c with
    | some d => fromStrRadix10Core cs (10 * acc + d)
    | none => none

/-- Model of `num::from_str_radix::<uint>(s, 10)` at the library boundary:
an empty string or any non-digit character yields `None`. -/
def fromStrRadix10 (s : String) : Option Nat :=
  match s.data with
  | [] => none
  | cs => fromStrRadix10Core cs 0

/-- Left brace character, written via its code point. -/
def lbrace : Char := Char.ofNat 123

/-- Right brace character, written via its code point. -/
def rbrace : Char := Char.ofNat 125

/-- Drop leading JSON whitespace. -/
def skipWs : List Char → List Char
  | [] => []
  | c :: cs =>
    if c = ' ' || c = '\t' || c = '\n' || c = '\r' then skipWs cs else c :: cs

/-- Value of an ASCII hexadecimal digit character. -/
def hexVal (c : Char) : Option Nat :=
  if '0' ≤ c && c ≤ '9' then some (c.toNat - 48)
  else if 'a' ≤ c && c ≤ 'f' then some (c.toNat - 87)
  else if 'A' ≤ c && c ≤ 'F' then some (c.toNat - 55)
  else none

/-- Match an expected literal tail (for `null` / `true` / `false`). -/
def matchLit : List Char → List Char → Option (List Char)
  | [], input => some input
  | c :: cs, d :: ds => if c = d then matchLit cs ds else none
  | _ :: _, [] => none

/-- Parse the body of a JSON string after the opening quote, handling the
standard escapes; returns the contents and the input after the closing quote.
The first argument is fuel. -/
def parseStringBody : Nat → List Char → Option (List Char × List Char)
  | 0, _ => none
  | _ + 1, [] => none
  | f + 1, c :: cs =>
    if c = '"' then some ([], cs)
    else if c = '\\' then
      match cs with
      | [] => none
      | e :: cs2 =>
        let esc : Option (Char × List Char) :=
          if e = '"' then some ('"', cs2)
          else if e = '\\' then some ('\\', cs2)
          else if e = '/' then some ('/', cs2)
          else if e = 'b' then some (Char.ofNat 8, cs2)
          else if e = 'f' then some (Char.ofNat 12, cs2)
          else if e = 'n' then some ('\n', cs2)
          else if e = 'r' then some ('\r', cs2)
          else if e = 't' then some ('\t', cs2)
          else if e = 'u' then
            match cs2 with
            | h1 :: h2 :: h3 :: h4 :: cs3 =>
              match hexVal h1, hexVal h2, hexVal h3, hexVal h4 with
              | some x1, some x2, some x3, some x4 =>
                some (Char.ofNat (x1 * 4096 + x2 * 256 + x3 * 16 + x4), cs3)
              | _, _, _, _ => none
            | _ => none
          else none
        match esc with
        | none => none
        | some (ch, rest) =>
          (parseStringBody f rest).map (fun p => (ch :: p.1, p.2))
    else if c.toNat < 32 then none
    else (parseStringBody f cs).map (fun p => (c :: p.1, p.2))

/-- Take a maximal run of decimal digits. -/
def takeDigits : List Char → List Char × List Char
  | [] => ([], [])
  | c :: cs =>
    if '0' ≤ c && c ≤ '9' then
      let p := takeDigits cs
      (c :: p.1, p.2)
    else ([], c :: cs)

/-- Lex an optional fraction part after the integer part of a JSON number. -/
def lexFrac (acc : List Char) (input : List Char) : Option (List Char × List Char) :=
  match input with
  | c :: cs =>
    if c = '.' then
      match takeDigits cs with
      | ([], _) => none
      | (ds, r) => some (acc ++ c :: ds, r)
    else some (acc, input)
  | [] => some (acc, [])

/-- Lex an optional exponent part of a JSON number. -/
def lexExp (acc : List Char) (input : List Char) : Option (List Char × List Char) :=
  match input with
  | c :: cs =>
    if c = 'e' || c = 'E' then
      let p :=
        match cs with
        | d :: ds => if d = '+' || d = '-' then ([d], ds) else (([] : List Char), cs)
        | [] => (([] : List Char), ([] : List Char))
      match takeDigits p.2 with
      | ([], _) => none
      | (ds, r) => some (acc ++ c :: (p.1 ++ ds), r)
    else some (acc, input)
  | [] => some (acc, [])

/-- Lex a JSON number token (sign, integer part without leading zeros,
optional fraction and exponent), returning the lexeme and the rest. -/
def lexNumber (input : List Char) : Option (List Char × List Char) :=
  let p :=
    match input with
    | c :: cs => if c = '-' then ([c], cs) else (([] : List Char), input)
    | [] => (([] : List Char), ([] : List Char))
  match p.2 with
  | [] => none
  | c :: cs =>
    if c = '0' then
      match cs with
      | d :: _ =>
        if '0' ≤ d && d ≤ '9' then none
        else
          match lexFrac (p.1 ++ [c]) cs with
          | none => none
          | some q => lexExp q.1 q.2
      | [] => some (p.1 ++ [c], [])
    else if '1' ≤ c && c ≤ '9' then
      let q := takeDigits cs
      match lexFrac (p.1 ++ c :: q.1) q.2 with
      | none => none
      | some r => lexExp r.1 r.2
    else none

mutual

/-- Recursive-descent JSON value parsing (model of `serialize::json::from_str`
at the library boundary); the first argument is fuel, large enough at every
top-level use. -/
def parseValue : Nat → List Char → Option (Json × List Char)
  | 0, _ => none
  | f + 1, input =>
    match skipWs input with
    | [] => none
    | c :: cs =>
      if c = 'n' then (matchLit ['u', 'l', 'l'] cs).map (fun r => (Json.null, r))
      else if c = 't' then (matchLit ['r', 'u', 'e'] cs).map (fun r => (Json.jbool true, r))
      else if c = 'f' then (matchLit ['a', 'l', 's', 'e'] cs).map (fun r => (Json.jbool false, r))
      else if c = '"' then (parseStringBody f cs).map (fun p => (Json.str ⟨p.1⟩, p.2))
      else if c = '[' then
        match skipWs cs with
        | d :: ds =>
          if d = ']' then some (Json.arr [], ds)
          else
            match parseElems f (d :: ds) with
            | none => none
            | some p => some (Json.arr p.1, p.2)
        | [] => none
      else if c = lbrace then
        match skipWs cs with
        | d :: ds =>
          if d = rbrace then some (Json.obj [], ds)
          else
            match parseMembers f [] (d :: ds) with
            | none => none
            | some p => some (Json.obj p.1, p.2)
        | [] => none
      else
        match lexNumber (c :: cs) with
        | none => none
        | some p => some (Json.num ⟨p.1⟩, p.2)

/-- Parse the comma-separated elements of a non-empty JSON array up to the
closing bracket. -/
def parseElems : Nat → List Char → Option (List Json × List Char)
  | 0, _ => none
  | f + 1, input =>
    match parseValue f input with
    | none => none
    | some (v, rest) =>
      match skipWs rest with
      | c :: cs =>
        if c = ',' then (parseElems f cs).map (fun p => (v :: p.1, p.2))
        else if c = ']' then some ([v], cs)
        else none
      | [] => none

/-- Parse the members of a non-empty JSON object up to the closing brace,
inserting each binding with overwrite (a later duplicate key wins, as in the
library's `TreeMap`). -/
def parseMembers : Nat → List (String × Json) → List Char → Option (List (String × Json) × List Char)
  | 0, _, _ => none
  | f + 1, acc, input =>
    match skipWs input with
    | c :: cs =>
      if c = '"' then
        match parseStringBody f cs with
        | none => none
        | some (key, r1) =>
          match skipWs r1 with
          | d :: ds =>
            if d = ':' then
              match parseValue f ds with
              | none => none
              | some (v, r2) =>
                let acc2 := insertAssoc acc ⟨key⟩ v
                match skipWs r2 with
                | e :: es =>
                  if e = ',' then parseMembers f acc2 es
                  else if e = rbrace then some (acc2, es)
                  else none
                | [] => none
            else none
          | [] => none
      else none
    | [] => none

end

/-- Model of `serialize::json::from_str`: parse one JSON value and require
that nothing but whitespace follows it. -/
def jsonFromStr (s : String) : Option Json :=
  match parseValue (2 * s.data.length + 4) s.data with
  | none => none
  | some (j, rest) => if (skipWs rest).isEmpty then some j else none

/-- Split an input stream at the first `:` byte (value 58): the bytes read
into `buffer` by the inner loop of `handle_client` and the bytes after the
colon; `none` when the stream ends before a colon is seen (the `EndOfFile`
branch, a clean close). -/
def splitAtColon : List Nat → Option (List Nat × List Nat)
  | [] => none
  | b :: bs =>
    if b = 58 then some ([], bs)
    else
      match splitAtColon bs with
      | none => none
      | some (buf, rest) => some (b :: buf, rest)

/-- Result of one packet-reading iteration of `handle_client`. -/
inductive ReadResult where
  | eof
  | panicked (site : PanicSite)
  | packet (msg : List (String × Json)) (rest : List Nat)

/-- Model of one iteration of the packet-reading loop in `handle_client`
(lib.rs lines 101-127): accumulate bytes to the first `:` (end of stream
first is a clean EOF), then `String::from_utf8(buffer).unwrap()`,
`from_str_radix(.., 10).unwrap()`, `read_exact(len).unwrap()`,
`String::from_utf8(payload).unwrap()`, `json::from_str(..).unwrap()` and
`as_object().unwrap()` — each `.unwrap()` failure is a panic that fails the
session task, recorded by its site. -/
def readPacket (input : List Nat) : ReadResult :=
  match splitAtColon input with
  | none => .eof
  | some (buf, rest) =>
    match utf8Decode buf with
    | none => .panicked .lenFromUtf8
    | some lenChars =>
      match fromStrRadix10 ⟨lenChars⟩ with
      | none => .panicked .lenFromStrRadix
      | some n =>
        if rest.length < n then .panicked .readExact
        else
          match utf8Decode (rest.take n) with
          | none => .panicked .payloadFromUtf8
          | some payloadChars =>
            match jsonFromStr ⟨payloadChars⟩ with
            | none => .panicked .payloadFromStr
            | some j =>
              match j.as_object with
              | none => .panicked .payloadAsObject
              | some msg => .packet msg (rest.drop n)

/-- How a session worker's loop ended. -/
inductive SessionEnd where
  | cleanEof
  | taskPanicked (site : PanicSite)
  | outOfFuel
deriving DecidableEq

/-- Model of the packet loop of `handle_client`: read packets one after the
other, dispatching each through `handle_message` under the registry lock, and
collect the dispatch log.  The fuel argument only bounds the iteration count
(`input.length + 1` always suffices, as each packet consumes at least the
colon byte); `outOfFuel` is an artifact never reached at adequate fuel. -/
def sessionRun (h : Handler) : Nat → ActorRegistry → List Nat → List DispatchLog × SessionEnd
  | 0, _, _ => ([], .outOfFuel)
  | f + 1, reg, input =>
    match readPacket input with
    | .eof => ([], .cleanEof)
    | .panicked site => ([], .taskPanicked site)
    | .packet msg rest =>
      match reg.handle_message h msg with
      | .error site => ([], .taskPanicked site)
      | .ok (reg2, log) =>
        let p := sessionRun h f reg2 rest
        (log :: p.1, p.2)

/-- Model of `devtools_traits::DevtoolsControlMsg`: the two lifecycle events
of the control channel, with opaque identifier and channel tokens. -/
inductive DevtoolsControlMsg where
  | ServerExitMsg
  | NewGlobal (id : Nat) (sender : Nat)
deriving DecidableEq

/-- Outcome of `port.try_recv()` on the control channel. -/
inductive RecvOutcome where
  | ok (m : DevtoolsControlMsg)
  | empty
  | disconnected
deriving DecidableEq

/-- One observable event of the accept loop: a connection accepted, an accept
failure other than a timeout, or a timeout together with the control channel
poll it triggers. -/
inductive ServerEvent where
  | acceptConn (stream : Nat)
  | acceptOtherErr
  | timedOut (r : RecvOutcome)
deriving DecidableEq

/-- Phase of the connection server. -/
inductive ServerPhase where
  | Serving
  | Stopped
deriving DecidableEq

/-- State of the connection server: its phase, the shared registry, and the
session workers spawned so far (by opaque stream token). -/
structure ServerState where
  phase : ServerPhase
  registry : ActorRegistry
  workers : List Nat
deriving DecidableEq

/-- Model of one iteration of the accept/control loop of `run_server` (lib.rs
lines 171-189).  An accepted stream spawns a worker; a non-timeout accept
error is ignored; on a timeout the control channel is polled: `ServerExitMsg`
or a disconnected channel break the loop (terminal `Stopped` phase — spawned
workers are left as they are, the source keeps no handle to them), `NewGlobal`
applies `handle_new_global` (whose `none` case, a panic, propagates as
`none`), and an empty channel leaves everything unchanged.  `Stopped` is
terminal: the loop has returned and no further event is processed. -/
def serverStep (s : ServerState) (e : ServerEvent) : Option ServerState :=
  match s.phase with
  | .Stopped => some s
  | .Serving =>
    match e with
    | .acceptConn stream => some { s with workers := s.workers ++ [stream] }
    | .acceptOtherErr => some s
    | .timedOut r =>
      match r with
      | .ok .ServerExitMsg => some { s with phase := .Stopped }
      | .disconnected => some { s with phase := .Stopped }
      | .ok (.NewGlobal id sender) =>
        match handle_new_global s.registry id sender with
        | some reg2 => some { s with registry := reg2 }
        | none => none
      | .empty => some s

/-- Registry states the server can construct: the initial registry, then any
interleaving of `handle_new_global` events (control channel) and successful
`handle_message` dispatches (session workers, serialized by the registry
lock). -/
inductive Reachable : ActorRegistry → Prop where
  | init : Reachable initialRegistry
  | newGlobal {reg reg2 : ActorRegistry} {pid chan : Nat} :
      Reachable reg → handle_new_global reg pid chan = some reg2 → Reachable reg2
  | dispatch {reg reg2 : ActorRegistry} {h : Handler} {msg : List (String × Json)}
      {log : DispatchLog} :
      Reachable reg → reg.handle_message h msg = .ok (reg2, log) → Reachable reg2

/-- Model of `run_server`'s reaction to a sequence of `NewGlobal` control
events: apply `handle_new_global` once per event, event `k` carrying pipeline
id `pid k` and script channel `chan k`. -/
def applyNewTargets (pid chan : Nat → Nat) : Nat → ActorRegistry → Option ActorRegistry
  | 0, reg => some reg
  | k + 1, reg =>
    match applyNewTargets pid chan k reg with
    | none => none
    | some r => handle_new_global r (pid k) (chan k)

/-- An actor handler that recognizes no message type; used to instantiate the
dispatch theorems at a concrete input. -/
def trivialHandler : Handler := fun _ _ _ _ => false

/-- Looking up the key just inserted yields the inserted value. -/
theorem lookupAssoc_insertAssoc_self {α : Type} (m : List (String × α)) (k : String) (v : α) :
    lookupAssoc (insertAssoc m k v) k = some v := by
  induction m with
  | nil => simp [insertAssoc, lookupAssoc]
  | cons hd tl ih =>
    obtain ⟨k0, v0⟩ := hd
    by_cases hk : k0 = k
    · simp [insertAssoc, hk, lookupAssoc]
    · simp [insertAssoc, hk, lookupAssoc, ih]

/-- Inserting one key does not disturb the binding of any other key. -/
theorem lookupAssoc_insertAssoc_ne {α : Type} (m : List (String × α)) (k key : String) (v : α)
    (h : key ≠ k) : lookupAssoc (insertAssoc m k v) key = lookupAssoc m key := by
  induction m with
  | nil => simp [insertAssoc, lookupAssoc, Ne.symm h]
  | cons hd tl ih =>
    obtain ⟨k0, v0⟩ := hd
    by_cases hk : k0 = k
    · subst hk
      simp [insertAssoc, lookupAssoc, Ne.symm h]
    · simp [insertAssoc, hk, lookupAssoc, ih]

/-- Numeric value of a decimal digit string (digits read left to right). -/
def listVal (cs : List Char) : Nat :=
  List.foldl (fun a c => 10 * a + (c.toNat - 48)) 0 cs

/-- The accumulator of `natDigitsCore` is simply appended to the digits. -/
theorem natDigitsCore_acc (f : Nat) :
    ∀ n acc, natDigitsCore f n acc = natDigitsCore f n [] ++ acc := by
  induction f with
  | zero => intro n acc; simp [natDigitsCore]
  | succ f ih =>
    intro n acc
    by_cases h : n < 10
    · simp [natDigitsCore, h]
    · simp only [natDigitsCore, if_neg h]
      rw [ih (n / 10) (Nat.digitChar (n % 10) :: acc), ih (n / 10) [Nat.digitChar (n % 10)]]
      simp

/-- Code point of `Nat.digitChar` on an actual digit. -/
theorem digitChar_toNat : ∀ d, d < 10 → (Nat.digitChar d).toNat = 48 + d := by decide

/-- Appending one digit multiplies the value by ten and adds the digit. -/
theorem listVal_append_digit (cs : List Char) (c : Char) :
    listVal (cs ++ [c]) = 10 * listVal cs + (c.toNat - 48) := by
  simp [listVal, List.foldl_append]

/-- With enough fuel, `natDigitsCore` renders exactly its input. -/
theorem listVal_natDigitsCore : ∀ f n, n < 10 ^ f → listVal (natDigitsCore f n []) = n := by
  intro f
  induction f with
  | zero =>
    intro n hn
    have h0 : n = 0 := Nat.lt_one_iff.mp hn
    subst h0
    rfl
  | succ f ih =>
    intro n hn
    by_cases h : n < 10
    · have hm : n % 10 = n := Nat.mod_eq_of_lt h
      simp only [natDigitsCore, if_pos h, listVal, List.foldl]
      rw [hm, digitChar_toNat n h]
      omega
    · have hdiv : n / 10 < 10 ^ f := by
        have h10 : (0 : Nat) < 10 := by norm_num
        rw [Nat.div_lt_iff_lt_mul h10]
        calc n < 10 ^ (f + 1) := hn
        _ = 10 ^ f * 10 := by rw [pow_succ]
      have hmod : n % 10 < 10 := Nat.mod_lt n (by norm_num)
      simp only [natDigitsCore, if_neg h]
      rw [natDigitsCore_acc, listVal_append_digit, ih (n / 10) hdiv,
        digitChar_toNat (n % 10) hmod]
      omega

/-- The decimal rendering evaluates back to the rendered number. -/
theorem listVal_natRepr (n : Nat) : listVal (natRepr n).data = n := by
  have hlt : n < 10 ^ (n + 1) := by
    calc n < 10 ^ n := Nat.lt_pow_self (by norm_num) n
    _ ≤ 10 ^ (n + 1) := Nat.pow_le_pow_right (by norm_num) (Nat.le_succ n)
  exact listVal_natDigitsCore (n + 1) n hlt

/-- Decimal rendering is injective. -/
theorem natRepr_injective {m n : Nat} (h : natRepr m = natRepr n) : m = n := by
  have hv := congrArg (fun s => listVal s.data) h
  simpa [listVal_natRepr] using hv

/-- String concatenation concatenates the character data. -/
theorem string_data_append (a b : String) : (a ++ b).data = a.data ++ b.data := rfl

/-- A tab name and a console name never coincide. -/
theorem tabName_ne_consoleName (m n : Nat) : tabName m ≠ consoleName n := by
  intro h
  have h2 := congrArg String.data h
  rw [tabName, consoleName, string_data_append, string_data_append] at h2
  have e1 : ("tab" : String).data = ['t', 'a', 'b'] := rfl
  have e2 : ("console" : String).data = ['c', 'o', 'n', 's', 'o', 'l', 'e'] := rfl
  rw [e1, e2] at h2
  injection h2 with h3 _
  exact absurd h3 (by decide)

/-- A tab name is never the Root actor's name. -/
theorem tabName_ne_root (n : Nat) : tabName n ≠ "root" := by
  intro h
  have h2 := congrArg String.data h
  rw [tabName, string_data_append] at h2
  have e1 : ("tab" : String).data = ['t', 'a', 'b'] := rfl
  have e2 : ("root" : String).data = ['r', 'o', 'o', 't'] := rfl
  rw [e1, e2] at h2
  injection h2 with h3 _
  exact absurd h3 (by decide)

/-- A console name is never the Root actor's name. -/
theorem consoleName_ne_root (n : Nat) : consoleName n ≠ "root" := by
  intro h
  have h2 := congrArg String.data h
  rw [consoleName, string_data_append] at h2
  have e1 : ("console" : String).data = ['c', 'o', 'n', 's', 'o', 'l', 'e'] := rfl
  have e2 : ("root" : String).data = ['r', 'o', 'o', 't'] := rfl
  rw [e1, e2] at h2
  injection h2 with h3 _
  exact absurd h3 (by decide)

/-- Distinct counters give distinct tab names. -/
theorem tabName_injective {m n : Nat} (h : tabName m = tabName n) : m = n := by
  have h2 := congrArg String.data h
  rw [tabName, tabName, string_data_append, string_data_append] at h2
  have e1 : ("tab" : String).data = ['t', 'a', 'b'] := rfl
  rw [e1] at h2
  injection h2 with _ h3
  injection h3 with _ h4
  injection h4 with _ h5
  exact natRepr_injective (String.ext h5)

/-- Distinct counters give distinct console names. -/
theorem consoleName_injective {m n : Nat} (h : consoleName m = consoleName n) : m = n := by
  have h2 := congrArg String.data h
  rw [consoleName, consoleName, string_data_append, string_data_append] at h2
  have e1 : ("console" : String).data = ['c', 'o', 'n', 's', 'o', 'l', 'e'] := rfl
  rw [e1] at h2
  repeat injection h2 with _ h2
  exact natRepr_injective (String.ext h2)

/-- Unfolding of `handle_new_global` when the `"root"` binding holds the Root
actor (as it does in every state the server constructs): the Root is updated
in place, then the new Tab and Console actors are registered. -/
theorem handle_new_global_eq (reg : ActorRegistry) (r : RootActor) (pid chan : Nat)
    (hroot : lookupAssoc reg.actors "root" = some (.root r)) :
    handle_new_global reg pid chan =
      some ⟨insertAssoc (insertAssoc (insertAssoc reg.actors "root"
          (.root ⟨r.next + 1, r.tabs ++ [tabName r.next]⟩))
        (tabName r.next) (.tab ⟨tabName r.next, "", "about:blank"⟩))
        (consoleName r.next) (.console ⟨consoleName r.next, chan, pid⟩)⟩ := by
  simp [handle_new_global, hroot, ActorRegistry.register, ActorData.name]

/-- On every non-panicking path `handle_message` returns the registry it was
given: the method takes `&self` and cannot mutate any actor binding. -/
theorem handle_message_ok_reg {h : Handler} {reg reg2 : ActorRegistry}
    {msg : List (String × Json)} {log : DispatchLog}
    (hh : reg.handle_message h msg = .ok (reg2, log)) : reg2 = reg := by
  unfold ActorRegistry.handle_message at hh
  repeat' split at hh
  all_goals
    first
      | exact Except.noConfusion hh
      | (injection hh with h1; injection h1 with h2 h3; exact h2.symm)

/-- C1: the claim says a `find`/`find_mut` at a type other than the one the
name was registered with fails loudly.  It does not: `is` returns `true`
unconditionally, so the typed lookup returns a value for ANY requested type —
here the `"root"` entry (registered as the Root actor) requested at concrete
type Tab yields the stored actor, which the source then reinterprets in place
as a `TabActor` via `transmute` instead of panicking. -/
theorem findTyped_mismatch_returns_value :
    initialRegistry.findTyped "root" ActorTy.tab = some (.root ⟨0, []⟩) ∧
    (ActorData.root ⟨0, []⟩).isTy ActorTy.tab = true :=
  ⟨rfl, rfl⟩

/-- C2: the claim says an empty or non-numeric length prefix yields a handled
`FramingError` (logged, connection closed, no unhandled fault).  Instead the
decode loop panics at `from_str_radix(..).unwrap()`: on the stream `"x:"`
(bytes 120, 58) and on the empty prefix `":"` the session task fails with an
unwrap panic, which `sessionRun` surfaces as `taskPanicked`, not as any
logged-and-handled outcome. -/
theorem framing_error_panics_session :
    readPacket [120, 58] = .panicked .lenFromStrRadix ∧
    readPacket [58] = .panicked .lenFromStrRadix ∧
    sessionRun trivialHandler 1 initialRegistry [120, 58] =
      ([], .taskPanicked .lenFromStrRadix) :=
  ⟨rfl, rfl, rfl⟩

/-- C3: the claim says a payload that is not UTF-8, not JSON, or not a JSON
object yields a handled `MalformedPayload` error.  Instead the session panics
at the corresponding `.unwrap()`: payload byte `0xFF` (packet `1:` then 255)
fails `String::from_utf8`, payload `"{"` (an unterminated object) fails
`json::from_str`, and payload `"[]"` (valid JSON, not an object) fails
`as_object`; each is an unwrap panic failing the task, not a handled
error. -/
theorem malformed_payload_panics_session :
    readPacket [49, 58, 255] = .panicked .payloadFromUtf8 ∧
    readPacket [49, 58, 123] = .panicked .payloadFromStr ∧
    readPacket [50, 58, 91, 93] = .panicked .payloadAsObject ∧
    sessionRun trivialHandler 1 initialRegistry [50, 58, 91, 93] =
      ([], .taskPanicked .payloadAsObject) :=
  ⟨rfl, rfl, rfl, rfl⟩

/-- C7: `register` inserts or overwrites the binding for the actor's name —
a subsequent lookup of that name yields the newly registered actor, every
other name's binding is untouched, and `register` is total (no error
case). -/
theorem register_overwrites_binding (reg : ActorRegistry) (a : ActorData) :
    lookupAssoc (reg.register a).actors a.name = some a ∧
    (∀ n, n ≠ a.name → lookupAssoc (reg.register a).actors n = lookupAssoc reg.actors n) :=
  ⟨lookupAssoc_insertAssoc_self _ _ _,
   fun _ hn => lookupAssoc_insertAssoc_ne _ _ _ _ hn⟩

/-- Witness for C7 at a concrete input: re-registering the name `"root"`
(already bound in the initial registry) overwrites the old binding, and an
unrelated name is unaffected. -/
theorem register_overwrites_binding_witness :
    lookupAssoc ((initialRegistry.register (.root ⟨5, ["x"]⟩)).actors) "root" =
      some (.root ⟨5, ["x"]⟩) ∧
    lookupAssoc ((initialRegistry.register (.root ⟨5, ["x"]⟩)).actors) "z" =
      lookupAssoc initialRegistry.actors "z" :=
  ⟨(register_overwrites_binding initialRegistry (.root ⟨5, ["x"]⟩)).1,
   (register_overwrites_binding initialRegistry (.root ⟨5, ["x"]⟩)).2 "z" (by decide)⟩

/-- C9: `handle_message` is partial at its public interface: a message with
no `to` field, or a non-string `to`, panics at the corresponding `.unwrap()`;
and when `to` names a registered actor, a missing or non-string `type` field
panics before the actor is invoked (the conclusion holds for every handler
`h`, so the actor's behavior is never consulted). -/
theorem handle_message_panics_without_to_or_type :
    (∀ (h : Handler) (reg : ActorRegistry) (msg : List (String × Json)),
        objFind msg "to" = none →
        reg.handle_message h msg = .error .msgFindTo) ∧
    (∀ (h : Handler) (reg : ActorRegistry) (msg : List (String × Json)) (v : Json),
        objFind msg "to" = some v → v.as_string = none →
        reg.handle_message h msg = .error .toAsString) ∧
    (∀ (h : Handler) (reg : ActorRegistry) (msg : List (String × Json))
        (toN : String) (actor : ActorData),
        objFind msg "to" = some (.str toN) →
        lookupAssoc reg.actors toN = some actor →
        objFind msg "type" = none →
        reg.handle_message h msg = .error .msgFindType) ∧
    (∀ (h : Handler) (reg : ActorRegistry) (msg : List (String × Json))
        (toN : String) (actor : ActorData) (v : Json),
        objFind msg "to" = some (.str toN) →
        lookupAssoc reg.actors toN = some actor →
        objFind msg "type" = some v → v.as_string = none →
        reg.handle_message h msg = .error .typeAsString) := by
  refine ⟨?_, ?_, ?_, ?_⟩
  · intro h reg msg h1
    simp [ActorRegistry.handle_message, h1]
  · intro h reg msg v h1 h2
    simp [ActorRegistry.handle_message, h1, h2]
  · intro h reg msg toN actor h1 h2 h3
    simp [ActorRegistry.handle_message, h1, h2, h3, Json.as_string]
  · intro h reg msg toN actor v h1 h2 h3 h4
    have hs : (Json.str toN).as_string = some toN := rfl
    simp [ActorRegistry.handle_message, h1, h2, h3, h4, hs]

/-- Witness for C9 at concrete inputs: the empty message (no `to`), a numeric
`to`, a message to the registered `"root"` actor with no `type`, and one with
a numeric `type` each panic at the corresponding unwrap. -/
theorem handle_message_panics_without_to_or_type_witness :
    initialRegistry.handle_message trivialHandler [] = .error .msgFindTo ∧
    initialRegistry.handle_message trivialHandler [("to", Json.num "1")] =
      .error .toAsString ∧
    initialRegistry.handle_message trivialHandler [("to", Json.str "root")] =
      .error .msgFindType ∧
    initialRegistry.handle_message trivialHandler
      [("to", Json.str "root"), ("type", Json.num "1")] = .error .typeAsString :=
  ⟨handle_message_panics_without_to_or_type.1 trivialHandler initialRegistry [] rfl,
   handle_message_panics_without_to_or_type.2.1 trivialHandler initialRegistry
     [("to", Json.num "1")] (Json.num "1") rfl rfl,
   handle_message_panics_without_to_or_type.2.2.1 trivialHandler initialRegistry
     [("to", Json.str "root")] "root" (.root ⟨0, []⟩) rfl rfl rfl,
   handle_message_panics_without_to_or_type.2.2.2 trivialHandler initialRegistry
     [("to", Json.str "root"), ("type", Json.num "1")] "root" (.root ⟨0, []⟩)
     (Json.num "1") rfl rfl rfl rfl⟩

/-- C4: a message whose string `to` field names no registered actor is logged
(`unknownActor`) and ignored: `handle_message` does not panic, returns the
registry unchanged, and — when the message arrived as a decoded packet — the
session loop goes on to process the remaining input exactly as it would have
from a fresh iteration, so a subsequent well-formed message is handled
normally. -/
theorem dispatch_unknown_actor_is_logged (h : Handler) (reg : ActorRegistry)
    (msg : List (String × Json)) (toN : String) (input rest : List Nat) (f : Nat)
    (hto : objFind msg "to" = some (.str toN))
    (habs : lookupAssoc reg.actors toN = none)
    (hpkt : readPacket input = .packet msg rest) :
    reg.handle_message h msg = .ok (reg, .unknownActor toN) ∧
    sessionRun h (f + 1) reg input =
      (DispatchLog.unknownActor toN :: (sessionRun h f reg rest).1,
        (sessionRun h f reg rest).2) := by
  have hs : (Json.str toN).as_string = some toN := rfl
  have hmsg : reg.handle_message h msg = .ok (reg, .unknownActor toN) := by
    simp [ActorRegistry.handle_message, hto, hs, habs]
  refine ⟨hmsg, ?_⟩
  simp [sessionRun, hpkt, hmsg]

/-- Witness for C4 at a concrete input: the packet `10:` followed by an
object sending `to` `"x"` (a name the initial registry does not contain) is
logged as an unknown actor and dispatch returns the registry unchanged; the
session loop continues past it. -/
theorem dispatch_unknown_actor_is_logged_witness :
    initialRegistry.handle_message trivialHandler [("to", Json.str "x")] =
      .ok (initialRegistry, .unknownActor "x") ∧
    sessionRun trivialHandler 1 initialRegistry
      [49, 48, 58, 123, 34, 116, 111, 34, 58, 34, 120, 34, 125] =
      ([DispatchLog.unknownActor "x"], .outOfFuel) :=
  dispatch_unknown_actor_is_logged trivialHandler initialRegistry
    [("to", Json.str "x")] "x"
    [49, 48, 58, 123, 34, 116, 111, 34, 58, 34, 120, 34, 125] [] 0 rfl rfl rfl

/-- C6: a message whose `to` names a registered actor and whose string `type`
the actor's handler does not recognize (the handler returns `false`) is
logged (`unexpectedType`) and ignored: no panic, registry unchanged, and the
session loop continues with the remaining input. -/
theorem dispatch_unhandled_type_is_logged (h : Handler) (reg : ActorRegistry)
    (msg : List (String × Json)) (toN msgType : String) (actor : ActorData)
    (input rest : List Nat) (f : Nat)
    (hto : objFind msg "to" = some (.str toN))
    (hfound : lookupAssoc reg.actors toN = some actor)
    (hty : objFind msg "type" = some (.str msgType))
    (hunrec : h actor reg msgType msg = false)
    (hpkt : readPacket input = .packet msg rest) :
    reg.handle_message h msg = .ok (reg, .unexpectedType msgType toN) ∧
    sessionRun h (f + 1) reg input =
      (DispatchLog.unexpectedType msgType toN :: (sessionRun h f reg rest).1,
        (sessionRun h f reg rest).2) := by
  have hs1 : (Json.str toN).as_string = some toN := rfl
  have hs2 : (Json.str msgType).as_string = some msgType := rfl
  have hmsg : reg.handle_message h msg = .ok (reg, .unexpectedType msgType toN) := by
    simp [ActorRegistry.handle_message, hto, hs1, hfound, hty, hs2, hunrec]
  refine ⟨hmsg, ?_⟩
  simp [sessionRun, hpkt, hmsg]

/-- Witness for C6 at a concrete input: the packet `27:` carrying `to`
`"root"` (registered) and `type` `"ping"` (recognized by no handler here) is
logged as an unexpected message type, dispatch returns the registry
unchanged, and the loop continues. -/
theorem dispatch_unhandled_type_is_logged_witness :
    initialRegistry.handle_message trivialHandler
      [("to", Json.str "root"), ("type", Json.str "ping")] =
      .ok (initialRegistry, .unexpectedType "ping" "root") ∧
    sessionRun trivialHandler 1 initialRegistry
      [50, 55, 58, 123, 34, 116, 111, 34, 58, 34, 114, 111, 111, 116, 34, 44,
        34, 116, 121, 112, 101, 34, 58, 34, 112, 105, 110, 103, 34, 125] =
      ([DispatchLog.unexpectedType "ping" "root"], .outOfFuel) :=
  dispatch_unhandled_type_is_logged trivialHandler initialRegistry
    [("to", Json.str "root"), ("type", Json.str "ping")] "root" "ping"
    (.root ⟨0, []⟩)
    [50, 55, 58, 123, 34, 116, 111, 34, 58, 34, 114, 111, 111, 116, 34, 44,
      34, 116, 121, 112, 101, 34, 58, 34, 112, 105, 110, 103, 34, 125] [] 0
    rfl rfl rfl rfl rfl

/-- C8: in the accept loop's step relation, a timeout whose control poll
yields `ServerExitMsg` or a disconnected channel moves a `Serving` server to
`Stopped` with its spawned workers untouched; a `NewGlobal` event (whose
registration succeeds, as it does whenever the root binding is intact) and an
empty poll leave the server `Serving` (phase unchanged); and `Stopped` is
terminal — no event changes the state, in particular no worker is ever
cancelled. -/
theorem server_shutdown_transition (s : ServerState) (hs : s.phase = .Serving) :
    (serverStep s (.timedOut (.ok .ServerExitMsg)) =
        some { s with phase := .Stopped } ∧
      serverStep s (.timedOut .disconnected) =
        some { s with phase := .Stopped } ∧
      ({ s with phase := ServerPhase.Stopped } : ServerState).workers = s.workers) ∧
    (∀ id chan reg2, handle_new_global s.registry id chan = some reg2 →
        serverStep s (.timedOut (.ok (.NewGlobal id chan))) =
          some { s with registry := reg2 } ∧
        ({ s with registry := reg2 } : ServerState).phase = .Serving) ∧
    serverStep s (.timedOut .empty) = some s ∧
    (∀ (s2 : ServerState) (e : ServerEvent), s2.phase = .Stopped →
        serverStep s2 e = some s2) := by
  obtain ⟨ph, regis, ws⟩ := s
  simp only at hs
  subst hs
  refine ⟨⟨rfl, rfl, rfl⟩, ?_, rfl, ?_⟩
  · intro id chan reg2 hng
    exact ⟨by simp [serverStep, hng], rfl⟩
  · intro s2 e hs2
    obtain ⟨ph2, regis2, ws2⟩ := s2
    simp only at hs2
    subst hs2
    rfl

/-- Witness for C8 at a concrete state: the initial `Serving` server with no
workers. -/
theorem server_shutdown_transition_witness :
    (serverStep ⟨.Serving, initialRegistry, []⟩ (.timedOut (.ok .ServerExitMsg)) =
        some ⟨.Stopped, initialRegistry, []⟩ ∧
      serverStep ⟨.Serving, initialRegistry, []⟩ (.timedOut .disconnected) =
        some ⟨.Stopped, initialRegistry, []⟩ ∧
      (⟨.Stopped, initialRegistry, []⟩ : ServerState).workers = [] ) ∧
    (∀ id chan reg2, handle_new_global initialRegistry id chan = some reg2 →
        serverStep ⟨.Serving, initialRegistry, []⟩ (.timedOut (.ok (.NewGlobal id chan))) =
          some ⟨.Serving, reg2, []⟩ ∧
        (⟨.Serving, reg2, []⟩ : ServerState).phase = .Serving) ∧
    serverStep ⟨.Serving, initialRegistry, []⟩ (.timedOut .empty) =
      some ⟨.Serving, initialRegistry, []⟩ ∧
    (∀ (s2 : ServerState) (e : ServerEvent), s2.phase = .Stopped →
        serverStep s2 e = some s2) :=
  server_shutdown_transition ⟨.Serving, initialRegistry, []⟩ rfl

/-- C5: applying the `NewTarget` event `K` times from the initial state
yields a registry whose `"root"` binding holds counter `K` and target list
`[tab0, ..., tab(K-1)]` in order, and which binds every `tab i` (`i < K`) to
a Tab actor with that name, empty title and URL `about:blank`, and every
`console i` to a Console actor bound to event `i`'s channel and pipeline
id. -/
theorem new_target_allocation (pid chan : Nat → Nat) (K : Nat) :
    ∃ reg : ActorRegistry,
      applyNewTargets pid chan K initialRegistry = some reg ∧
      lookupAssoc reg.actors "root" =
        some (.root ⟨K, (List.range K).map tabName⟩) ∧
      (∀ i, i < K → lookupAssoc reg.actors (tabName i) =
        some (.tab ⟨tabName i, "", "about:blank"⟩)) ∧
      (∀ i, i < K → lookupAssoc reg.actors (consoleName i) =
        some (.console ⟨consoleName i, chan i, pid i⟩)) := by
  induction K with
  | zero =>
    refine ⟨initialRegistry, rfl, rfl, ?_, ?_⟩
    · intro i hi; exact absurd hi (by omega)
    · intro i hi; exact absurd hi (by omega)
  | succ K ih =>
    obtain ⟨reg, happ, hroot, htab, hcon⟩ := ih
    have hng := handle_new_global_eq reg ⟨K, (List.range K).map tabName⟩
      (pid K) (chan K) hroot
    refine ⟨⟨insertAssoc (insertAssoc (insertAssoc reg.actors "root"
        (.root ⟨K + 1, (List.range K).map tabName ++ [tabName K]⟩))
        (tabName K) (.tab ⟨tabName K, "", "about:blank"⟩))
        (consoleName K) (.console ⟨consoleName K, chan K, pid K⟩)⟩,
      ?_, ?_, ?_, ?_⟩
    · simp only [applyNewTargets, happ]
      exact hng
    · rw [lookupAssoc_insertAssoc_ne _ _ _ _ (Ne.symm (consoleName_ne_root K)),
        lookupAssoc_insertAssoc_ne _ _ _ _ (Ne.symm (tabName_ne_root K)),
        lookupAssoc_insertAssoc_self]
      simp [List.range_succ]
    · intro i hi
      by_cases hiK : i = K
      · subst hiK
        rw [lookupAssoc_insertAssoc_ne _ _ _ _ (tabName_ne_consoleName i i)]
        exact lookupAssoc_insertAssoc_self _ _ _
      · have hne : tabName i ≠ tabName K := fun hh => hiK (tabName_injective hh)
        rw [lookupAssoc_insertAssoc_ne _ _ _ _ (tabName_ne_consoleName i K),
          lookupAssoc_insertAssoc_ne _ _ _ _ hne,
          lookupAssoc_insertAssoc_ne _ _ _ _ (tabName_ne_root i)]
        exact htab i (by omega)
    · intro i hi
      by_cases hiK : i = K
      · subst hiK
        exact lookupAssoc_insertAssoc_self _ _ _
      · have hne : consoleName i ≠ consoleName K := fun hh => hiK (consoleName_injective hh)
        rw [lookupAssoc_insertAssoc_ne _ _ _ _ hne,
          lookupAssoc_insertAssoc_ne _ _ _ _ (Ne.symm (tabName_ne_consoleName K i)),
          lookupAssoc_insertAssoc_ne _ _ _ _ (consoleName_ne_root i)]
        exact hcon i (by omega)

/-- Witness for C5 at a concrete input: two `NewTarget` events with fixed
pipeline id 7 and channel token 9. -/
theorem new_target_allocation_witness :
    ∃ reg : ActorRegistry,
      applyNewTargets (fun _ => 7) (fun _ => 9) 2 initialRegistry = some reg ∧
      lookupAssoc reg.actors "root" =
        some (.root ⟨2, (List.range 2).map tabName⟩) ∧
      (∀ i, i < 2 → lookupAssoc reg.actors (tabName i) =
        some (.tab ⟨tabName i, "", "about:blank"⟩)) ∧
      (∀ i, i < 2 → lookupAssoc reg.actors (consoleName i) =
        some (.console ⟨consoleName i, 9, 7⟩)) :=
  new_target_allocation (fun _ => 7) (fun _ => 9) 2

/-- C10: in every registry state the server can construct — the initial
state, then any interleaving of `NewTarget` registrations and dispatches —
the `"root"` name is bound to the Root actor and its target-list length
equals its counter: the invariant holds initially (`0` and `[]`),
`handle_new_global` appends exactly one tab name while incrementing the
counter by exactly one, and a dispatch (`handle_message`, which takes
`&self`) leaves the registry untouched. -/
theorem root_target_list_length_invariant (reg : ActorRegistry)
    (h : Reachable reg) :
    ∃ r : RootActor, lookupAssoc reg.actors "root" = some (.root r) ∧
      r.tabs.length = r.next := by
  induction h with
  | init => exact ⟨⟨0, []⟩, rfl, rfl⟩
  | newGlobal hre hng ih =>
    obtain ⟨r, hlook, hlen⟩ := ih
    rw [handle_new_global_eq _ r _ _ hlook] at hng
    injection hng with hng
    subst hng
    refine ⟨⟨r.next + 1, r.tabs ++ [tabName r.next]⟩, ?_, ?_⟩
    · rw [lookupAssoc_insertAssoc_ne _ _ _ _ (Ne.symm (consoleName_ne_root r.next)),
        lookupAssoc_insertAssoc_ne _ _ _ _ (Ne.symm (tabName_ne_root r.next))]
      exact lookupAssoc_insertAssoc_self _ _ _
    · simp [hlen]
  | dispatch hre hok ih =>
    rw [handle_message_ok_reg hok]
    exact ih

/-- Witness for C10 at the initial state. -/
theorem root_target_list_length_invariant_witness :
    ∃ r : RootActor, lookupAssoc initialRegistry.actors "root" = some (.root r) ∧
      r.tabs.length = r.next :=
  root_target_list_length_invariant initialRegistry Reachable.init

end Devtools
